import Mathlib

/-!
Shallow embedding of the go-gin-todo-app in-memory todo store and its HTTP
handlers (src/main.go and the paginated variant src/unnamed/part_000).

Modelling conventions:
* Go `int` is a 64-bit two's-complement integer whose arithmetic wraps; it is
  modelled as `Int` kept in `[-2^63, 2^63 - 1]`, with `wrap64` applied at every
  operation whose operands can drive the result out of that range: the
  `nextID++` counter increment and the `offset`/`end` pagination arithmetic
  (reachable from parsed query values up to 2^63 - 1).  Sums bounded by the
  slice length plus a clamped limit (`totalCount + limit - 1`) stay plain,
  since no constructible Go slice brings them near 2^63.  A Go slice
  expression with out-of-range bounds panics; `GetTodosCore` returns an
  `Option`, `none` standing for that runtime panic.
* `time.Time` is modelled as `Nat`.  Each syntactic call to `time.Now()` in a
  handler body becomes one explicit time parameter of the embedded handler, in
  source order; `CreateTodo` calls `time.Now()` twice (lines 42-43) and hence
  takes two time parameters, `UpdateTodo` calls it once and takes one.
* A handler body runs after Gin has already decoded the request: the JSON-bound
  `Todo` value and the raw `:id` path string / query strings are the inputs.
* The global mutable state (`todos []Todo`, `nextID int`) is an explicit
  `Store` value threaded through the handlers; the mutex only serialises
  access and has no sequential content.
-/

/-- The `Todo` struct of src/main.go lines 13-20. -/
structure Todo where
  id : Int
  title : String
  description : String
  completed : Bool
  created_at : Nat
  updated_at : Nat
deriving DecidableEq, Repr

/-- The global in-memory database of src/main.go lines 23-27:
the ordered slice `todos` and the counter `nextID`. -/
structure Store where
  todos : List Todo
  nextID : Int
deriving DecidableEq, Repr

/-- Initial state: `todos` is the empty slice, `nextID = 1`. -/
def Store.init : Store := ⟨[], 1⟩

/-- Responses a CRUD handler can produce (status code plus payload). -/
inductive Response where
  /-- 200 with a record (GetTodo, UpdateTodo success). -/
  | ok (t : Todo)
  /-- 201 with the stored record (CreateTodo). -/
  | created (t : Todo)
  /-- 200 with the deletion confirmation message (DeleteTodo success). -/
  | deletedOk
  /-- 400 with error "Invalid todo ID". -/
  | invalidId
  /-- 404 with error "Todo not found". -/
  | notFound
deriving DecidableEq, Repr

/-- Numeric value of an ASCII digit character. -/
def digitVal (c : Char) : Nat := c.toNat - 48

/-- Value of a digit string read left to right. -/
def digitsToNat : List Char → Nat → Nat
  | [], acc => acc
  | c :: cs, acc => digitsToNat cs (acc * 10 + digitVal c)

/-- Model of Go `strconv.Atoi`: an optional sign followed by at least one
ASCII digit, rejecting values outside the signed 64-bit range (Go's `Atoi`
reports `ErrRange` there and every handler only checks `err != nil`). -/
def Atoi (s : String) : Option Int :=
  let signAndDigits : Int × List Char :=
    match s.data with
    | '+' :: cs => (1, cs)
    | '-' :: cs => (-1, cs)
    | cs => (1, cs)
  match signAndDigits with
  | (sign, digits) =>
    if digits.isEmpty then none
    else if digits.all Char.isDigit then
      let v : Int := sign * (digitsToNat digits 0 : Int)
      if v < -(2 ^ 63) ∨ 2 ^ 63 - 1 < v then none else some v
    else none

/-- Two's-complement wraparound of Go 64-bit `int` arithmetic: reduce into
`[-2^63, 2^63 - 1]`. -/
def wrap64 (x : Int) : Int := (x + 2 ^ 63) % 2 ^ 64 - 2 ^ 63

/-- `CreateTodo` (src/main.go lines 30-47), after a successful JSON bind
producing `newTodo`.  Lines 40-44: the bound record's `ID` is overwritten with
`nextID`, the counter is incremented (`nextID++` wraps at 2^63 - 1, as Go
signed arithmetic does), `CreatedAt`/`UpdatedAt` are overwritten with the two
`time.Now()` reads `t1` and `t2`, and the record is appended. -/
def CreateTodo (s : Store) (newTodo : Todo) (t1 t2 : Nat) : Response × Store :=
  let stored : Todo :=
    { newTodo with id := s.nextID, created_at := t1, updated_at := t2 }
  (.created stored, { todos := s.todos ++ [stored], nextID := wrap64 (s.nextID + 1) })

/-- The lookup loop of `GetTodo` (src/main.go lines 68-73): first record whose
`ID` equals `id`. -/
def findTodo (todos : List Todo) (id : Int) : Option Todo :=
  todos.find? (fun todo => todo.id == id)

/-- `GetTodo` (src/main.go lines 58-76): parse the `:id` path string; on parse
failure answer 400; otherwise scan for the first matching record. -/
def GetTodo (s : Store) (idParam : String) : Response :=
  match Atoi idParam with
  | none => .invalidId
  | some id =>
    match findTodo s.todos id with
    | some todo => .ok todo
    | none => .notFound

/-- The update loop of `UpdateTodo` (src/main.go lines 95-104): find the first
record with the given `ID`; replace it in place by the bound record with `ID`
forced to `id`, `CreatedAt` forced to the original, `UpdatedAt` set to the
`time.Now()` read `t`.  Returns the written record and the new slice. -/
def updateInList (todos : List Todo) (id : Int) (updatedTodo : Todo) (t : Nat) :
    Option (Todo × List Todo) :=
  match todos with
  | [] => none
  | todo :: rest =>
    if todo.id == id then
      let u : Todo :=
        { updatedTodo with id := id, created_at := todo.created_at, updated_at := t }
      some (u, u :: rest)
    else
      match updateInList rest id updatedTodo t with
      | some (u, rest') => some (u, todo :: rest')
      | none => none

/-- `UpdateTodo` (src/main.go lines 79-107), after a successful JSON bind
producing `updatedTodo`. -/
def UpdateTodo (s : Store) (idParam : String) (updatedTodo : Todo) (t : Nat) :
    Response × Store :=
  match Atoi idParam with
  | none => (.invalidId, s)
  | some id =>
    match updateInList s.todos id updatedTodo t with
    | some (u, todos') => (.ok u, { s with todos := todos' })
    | none => (.notFound, s)

/-- The deletion loop of `DeleteTodo` (src/main.go lines 120-126):
`todos = append(todos[:i], todos[i+1:]...)` removes the first record whose
`ID` equals `id`, closing the gap. -/
def deleteInList (todos : List Todo) (id : Int) : Option (List Todo) :=
  match todos with
  | [] => none
  | todo :: rest =>
    if todo.id == id then some rest
    else (deleteInList rest id).map (fun rest' => todo :: rest')

/-- `DeleteTodo` (src/main.go lines 110-129). -/
def DeleteTodo (s : Store) (idParam : String) : Response × Store :=
  match Atoi idParam with
  | none => (.invalidId, s)
  | some id =>
    match deleteInList s.todos id with
    | some todos' => (.deletedOk, { s with todos := todos' })
    | none => (.notFound, s)

/-- Page-parameter handling of `GetTodos` (src/unnamed/part_000 lines 55-62):
`page` starts at 1 and is replaced only when the query string is nonempty,
parses, and is positive. -/
def parsePage (pageParam : String) : Int :=
  if pageParam = "" then 1
  else
    match Atoi pageParam with
    | some p => if p > 0 then p else 1
    | none => 1

/-- Limit-parameter handling of `GetTodos` (src/unnamed/part_000 lines 56-72):
`limit` starts at 10 and is replaced only when the query string is nonempty,
parses, and is positive; values above 100 are capped at 100. -/
def parseLimit (limitParam : String) : Int :=
  if limitParam = "" then 10
  else
    match Atoi limitParam with
    | some l => if l > 0 then (if l ≤ 100 then l else 100) else 10
    | none => 10

/-- The pagination envelope `GetTodos` serialises
(src/unnamed/part_000 lines 85-93 and 105-113). -/
structure PageResponse where
  todos : List Todo
  total_count : Int
  current_page : Int
  total_pages : Int
  per_page : Int
  has_next : Bool
  has_prev : Bool
deriving DecidableEq, Repr

/-- The pagination computation of `GetTodos` (src/unnamed/part_000 lines
74-113), given the already-parsed effective `page` and `limit`.  Go's `/` on
`int` is truncated division, `Int.tdiv` here; `offset := (page - 1) * limit`
(line 82) and `end := offset + limit` (line 98) are int64 multiplications and
additions that wrap, `wrap64` here.  The slice expression
`todos[offset:end]` (line 103) panics at runtime when `offset < 0` or
`end < offset` (`end ≤ len` always holds after the clamp on lines 99-101);
that panic is `none`. -/
def GetTodosCore (todos : List Todo) (page limit : Int) : Option PageResponse :=
  let totalCount : Int := todos.length
  let totalPages0 : Int := Int.tdiv (totalCount + limit - 1) limit
  let totalPages : Int := if totalPages0 = 0 then 1 else totalPages0
  let offset : Int := wrap64 ((page - 1) * limit)
  if offset ≥ totalCount then
    some { todos := [], total_count := totalCount, current_page := page
           total_pages := totalPages, per_page := limit
           has_next := false, has_prev := page > 1 }
  else
    let endIdx : Int :=
      if wrap64 (offset + limit) > totalCount then totalCount
      else wrap64 (offset + limit)
    if offset < 0 ∨ endIdx < offset then none
    else
      some { todos := (todos.drop offset.toNat).take (endIdx - offset).toNat
             total_count := totalCount, current_page := page
             total_pages := totalPages, per_page := limit
             has_next := page < totalPages, has_prev := page > 1 }

/-- `GetTodos` (src/unnamed/part_000 lines 50-114): parse the two query
strings, then run the pagination computation over the current slice. -/
def GetTodos (s : Store) (pageParam limitParam : String) : Option PageResponse :=
  GetTodosCore s.todos (parsePage pageParam) (parseLimit limitParam)

/-- A client request that mutates the store: a Create (with its JSON-bound
draft and the two `time.Now()` reads) or a Delete (with its raw path id). -/
inductive Op where
  | create (draft : Todo) (t1 t2 : Nat)
  | delete (idParam : String)

/-- State transition of one operation. -/
def applyOp (s : Store) : Op → Store
  | .create draft t1 t2 => (CreateTodo s draft t1 t2).2
  | .delete idParam => (DeleteTodo s idParam).2

/-- Run a sequence of operations from a starting state. -/
def runOps (s : Store) (ops : List Op) : Store := ops.foldl applyOp s

/-- Id carried by a response payload (0 when the response has no record). -/
def respId : Response → Int
  | .ok t => t.id
  | .created t => t.id
  | _ => 0

/-- The ids reported by the 201 responses of the Create operations of a
sequence, in order. -/
def assignedIds (s : Store) : List Op → List Int
  | [] => []
  | .create draft t1 t2 :: rest =>
    respId (CreateTodo s draft t1 t2).1
      :: assignedIds (CreateTodo s draft t1 t2).2 rest
  | .delete idParam :: rest => assignedIds (DeleteTodo s idParam).2 rest

/-- Number of Create operations in a sequence. -/
def countCreates : List Op → Nat
  | [] => 0
  | .create _ _ _ :: rest => countCreates rest + 1
  | .delete _ :: rest => countCreates rest

/-- Record carried by a response payload (a fixed dummy for the payloads that
carry none). -/
def respTodo : Response → Todo
  | .ok t => t
  | .created t => t
  | _ => ⟨0, "", "", false, 0, 0⟩

/-- Concrete record used to instantiate the theorems. -/
def todoA : Todo := ⟨1, "alpha", "first", false, 10, 10⟩

/-- Concrete record used to instantiate the theorems. -/
def todoB : Todo := ⟨2, "beta", "second", true, 20, 20⟩

/-- Concrete record used to instantiate the theorems. -/
def todoC : Todo := ⟨3, "gamma", "third", false, 30, 30⟩

/-- Concrete draft (as produced by a JSON bind) used to instantiate the
theorems. -/
def draftD : Todo := ⟨0, "delta", "a draft", false, 0, 0⟩

/-- The same draft as `draftD` but with caller-supplied `id`, `created_at` and
`updated_at` values in the payload. -/
def draftJunk : Todo := ⟨999, "delta", "a draft", false, 123, 456⟩

/-- A small concrete operation sequence: three creates with a delete between
them. -/
def demoOps : List Op :=
  [.create draftD 0 0, .create draftD 1 1, .delete "1", .create draftD 2 2]

/-- 2^63 - 1 consecutive Create requests: enough for `nextID++` to reach the
top of the int64 range and wrap on the last increment. -/
def manyCreates : List Op := List.replicate 9223372036854775807 (Op.create draftD 0 0)

/-- Neither branch of `DeleteTodo` touches the counter. -/
theorem DeleteTodo_nextID (s : Store) (p : String) :
    ((DeleteTodo s p).2).nextID = s.nextID := by
  unfold DeleteTodo
  cases h : Atoi p with
  | none => rfl
  | some id =>
    simp only
    cases h2 : deleteInList s.todos id <;> rfl

/-- `wrap64` is the identity on values already inside the int64 range. -/
theorem wrap64_eq_self {x : Int} (h1 : -(2 ^ 63) ≤ x) (h2 : x ≤ 2 ^ 63 - 1) :
    wrap64 x = x := by
  have e1 : (2 : Int) ^ 63 = 9223372036854775808 := by norm_num
  have e2 : (2 : Int) ^ 64 = 18446744073709551616 := by norm_num
  rw [e1] at h1 h2
  unfold wrap64
  rw [e1, e2]
  omega

/-- From any in-range state whose counter stays below the int64 wrap point for
the whole run, the Create responses report the consecutive ids
`nextID, nextID + 1, …`, and the final counter is the initial counter plus the
number of Creates. -/
theorem assignedIds_eq (ops : List Op) : ∀ s : Store,
    -(2 ^ 63) ≤ s.nextID → s.nextID + (countCreates ops : Int) ≤ 2 ^ 63 - 1 →
    assignedIds s ops = (List.range (countCreates ops)).map (fun n : Nat => s.nextID + (n : Int))
    ∧ (runOps s ops).nextID = s.nextID + (countCreates ops : Int) := by
  induction ops with
  | nil => intro s _ _; simp [assignedIds, countCreates, runOps]
  | cons op rest ih =>
    intro s hlo hhi
    cases op with
    | create d t1 t2 =>
      have hcount : countCreates (.create d t1 t2 :: rest) = countCreates rest + 1 := rfl
      rw [hcount] at hhi
      have hnext : ((CreateTodo s d t1 t2).2).nextID = s.nextID + 1 := by
        show wrap64 (s.nextID + 1) = s.nextID + 1
        exact wrap64_eq_self (by omega) (by push_cast at hhi; omega)
      have h := ih (CreateTodo s d t1 t2).2 (by rw [hnext]; omega)
        (by rw [hnext]; push_cast at hhi ⊢; omega)
      constructor
      · show respId (CreateTodo s d t1 t2).1
            :: assignedIds (CreateTodo s d t1 t2).2 rest = _
        rw [h.1, hnext]
        show s.nextID :: _ = _
        rw [show countCreates (.create d t1 t2 :: rest) = countCreates rest + 1 from rfl,
          List.range_succ_eq_map, List.map_cons, List.map_map]
        refine congrArg₂ _ (by simp) (List.map_congr_left ?_)
        intro a _
        simp [Function.comp]
        ring
      · show (runOps (CreateTodo s d t1 t2).2 rest).nextID = _
        rw [h.2, hnext,
          show countCreates (.create d t1 t2 :: rest) = countCreates rest + 1 from rfl]
        push_cast
        ring
    | delete p =>
      have hcount : countCreates (.delete p :: rest) = countCreates rest := rfl
      rw [hcount] at hhi
      have h := ih (DeleteTodo s p).2 (by rw [DeleteTodo_nextID]; omega)
        (by rw [DeleteTodo_nextID]; omega)
      constructor
      · show assignedIds (DeleteTodo s p).2 rest = _
        rw [h.1, DeleteTodo_nextID]
        rfl
      · show (runOps (DeleteTodo s p).2 rest).nextID = _
        rw [h.2, DeleteTodo_nextID]
        rfl

/-- The lookup loop finds nothing when no record carries the id. -/
theorem findTodo_eq_none {todos : List Todo} {id : Int}
    (h : ∀ x ∈ todos, x.id ≠ id) : findTodo todos id = none := by
  induction todos with
  | nil => rfl
  | cons a rest ih =>
    have ha : (a.id == id) = false := by
      simp [h a (List.mem_cons_self a rest)]
    simp [findTodo, List.find?, ha]
    exact fun x hx => h x (List.mem_cons_of_mem a hx)

/-- The update loop finds nothing when no record carries the id. -/
theorem updateInList_eq_none {todos : List Todo} {id : Int}
    (h : ∀ x ∈ todos, x.id ≠ id) (d : Todo) (t : Nat) :
    updateInList todos id d t = none := by
  induction todos with
  | nil => rfl
  | cons a rest ih =>
    have ha : (a.id == id) = false := by
      simp [h a (List.mem_cons_self a rest)]
    simp [updateInList, ha]
    rw [ih (fun x hx => h x (List.mem_cons_of_mem a hx))]

/-- The deletion loop finds nothing when no record carries the id. -/
theorem deleteInList_eq_none {todos : List Todo} {id : Int}
    (h : ∀ x ∈ todos, x.id ≠ id) : deleteInList todos id = none := by
  induction todos with
  | nil => rfl
  | cons a rest ih =>
    have ha : (a.id == id) = false := by
      simp [h a (List.mem_cons_self a rest)]
    simp [deleteInList, ha]
    exact ih (fun x hx => h x (List.mem_cons_of_mem a hx))

/-- On the first record carrying the id, the update loop writes the bound
record (id and creation time forced, update time refreshed) in place and
leaves every other position untouched. -/
theorem updateInList_found (pre : List Todo) (old : Todo) (post : List Todo)
    (id : Int) (d : Todo) (t : Nat)
    (hold : old.id = id) (hpre : ∀ y ∈ pre, y.id ≠ id) :
    updateInList (pre ++ old :: post) id d t =
      some ({ d with id := id, created_at := old.created_at, updated_at := t },
        pre ++ { d with id := id, created_at := old.created_at, updated_at := t } :: post) := by
  induction pre with
  | nil => simp [updateInList, hold]
  | cons a rest ih =>
    have ha : (a.id == id) = false := by
      simp [hpre a (List.mem_cons_self a rest)]
    have ih' := ih (fun y hy => hpre y (List.mem_cons_of_mem a hy))
    simp [updateInList, ha, ih']

/-- On the first record carrying the id, the deletion loop removes exactly
that record and closes the gap, keeping the order of the rest. -/
theorem deleteInList_found (pre : List Todo) (old : Todo) (post : List Todo)
    (id : Int) (hold : old.id = id) (hpre : ∀ y ∈ pre, y.id ≠ id) :
    deleteInList (pre ++ old :: post) id = some (pre ++ post) := by
  induction pre with
  | nil => simp [deleteInList, hold]
  | cons a rest ih =>
    have ha : (a.id == id) = false := by
      simp [hpre a (List.mem_cons_self a rest)]
    have ih' := ih (fun y hy => hpre y (List.mem_cons_of_mem a hy))
    simp [deleteInList, ha, ih']

/-- A run of n consecutive Creates from an in-range counter that never reaches
the wrap point just adds n to the counter. -/
theorem runOps_replicate_create (d : Todo) (t1 t2 : Nat) (n : Nat) :
    ∀ s : Store, -(2 ^ 63) ≤ s.nextID → s.nextID + (n : Int) ≤ 2 ^ 63 - 1 →
    (runOps s (List.replicate n (Op.create d t1 t2))).nextID = s.nextID + (n : Int) := by
  induction n with
  | zero => intro s _ _; simp [runOps]
  | succ k ih =>
    intro s hlo hhi
    rw [List.replicate_succ]
    show (runOps (applyOp s (Op.create d t1 t2))
      (List.replicate k (Op.create d t1 t2))).nextID = _
    have hnext : (applyOp s (Op.create d t1 t2)).nextID = s.nextID + 1 := by
      show wrap64 (s.nextID + 1) = s.nextID + 1
      exact wrap64_eq_self (by omega) (by push_cast at hhi; omega)
    rw [ih (applyOp s (Op.create d t1 t2)) (by rw [hnext]; omega)
      (by rw [hnext]; push_cast at hhi ⊢; omega), hnext]
    push_cast
    ring

/-- C1 counterexample: after 2^63 - 1 Create requests from the empty store the
counter, which had climbed to 2^63 - 1, wraps to -2^63 on the final
`nextID++` — strictly below its starting value, so the claim that the counter
is never decremented or rewound fails on this run. -/
theorem create_ids_wrap_cex :
    (runOps Store.init manyCreates).nextID = -(2 ^ 63)
    ∧ (runOps Store.init manyCreates).nextID < Store.init.nextID := by
  have hsplit : manyCreates
      = List.replicate 9223372036854775806 (Op.create draftD 0 0)
          ++ [Op.create draftD 0 0] := by
    rw [manyCreates, show (9223372036854775807 : Nat) = 9223372036854775806 + 1 from rfl,
      List.replicate_succ']
  have h1 : (runOps Store.init
        (List.replicate 9223372036854775806 (Op.create draftD 0 0))).nextID
      = 9223372036854775807 := by
    have h := runOps_replicate_create draftD 0 0 9223372036854775806 Store.init
      (by decide) (by decide)
    rw [h]
    decide
  have h2 : (runOps Store.init manyCreates).nextID = -(2 ^ 63) := by
    have hlast : runOps Store.init manyCreates
        = applyOp (runOps Store.init
            (List.replicate 9223372036854775806 (Op.create draftD 0 0)))
          (Op.create draftD 0 0) := by
      rw [hsplit]
      show List.foldl applyOp Store.init (_ ++ _) = _
      rw [List.foldl_append]
      rfl
    rw [hlast]
    show wrap64 ((runOps Store.init
      (List.replicate 9223372036854775806 (Op.create draftD 0 0))).nextID + 1) = _
    rw [h1]
    decide
  exact ⟨h2, by rw [h2]; decide⟩

/-- C1 (amended): For every sequence of create and delete operations starting
from the empty store in which the number of Creates is at most 2^63 - 2 — so
the int64 counter never overflows — the ids reported by the successful
Creates are exactly `1, 2, …, k` in order (each one greater than the previous,
starting at 1), no id is ever assigned twice, and the counter ends at `k + 1`
— it is never decremented or rewound by deletions. -/
theorem create_ids_consecutive_from_one (ops : List Op)
    (hk : (countCreates ops : Int) ≤ 2 ^ 63 - 2) :
    assignedIds Store.init ops
      = (List.range (countCreates ops)).map (fun n : Nat => (n : Int) + 1)
    ∧ (assignedIds Store.init ops).Nodup
    ∧ (runOps Store.init ops).nextID = (countCreates ops : Int) + 1 := by
  have hinit : Store.init.nextID = 1 := rfl
  have h := assignedIds_eq ops Store.init (by rw [hinit]; omega) (by rw [hinit]; omega)
  refine ⟨?_, ?_, ?_⟩
  · rw [h.1, hinit]
    exact List.map_congr_left (fun a _ => by ring)
  · rw [h.1]
    exact (List.nodup_range _).map (fun a b hab => by omega)
  · rw [h.2, hinit]
    ring

/-- Witness for the amended C1: three creates with a delete interleaved report
ids 1, 2, 3 and leave the counter at 4. -/
theorem create_ids_consecutive_from_one_witness :
    ((countCreates demoOps : Int) ≤ 2 ^ 63 - 2)
    ∧ (assignedIds Store.init demoOps
        = (List.range (countCreates demoOps)).map (fun n : Nat => (n : Int) + 1)
      ∧ (assignedIds Store.init demoOps).Nodup
      ∧ (runOps Store.init demoOps).nextID = (countCreates demoOps : Int) + 1) :=
  ⟨by decide, create_ids_consecutive_from_one demoOps (by decide)⟩


/-- C9: For every path id string that does not parse as an integer, GetTodo,
UpdateTodo and DeleteTodo answer 400 Invalid todo ID, leave the store exactly
as it was, and never answer 404, whatever the store contains. -/
theorem invalid_id_rejected_before_lookup (s : Store) (idParam : String)
    (draft : Todo) (t : Nat) (h : Atoi idParam = none) :
    GetTodo s idParam = .invalidId
    ∧ UpdateTodo s idParam draft t = (.invalidId, s)
    ∧ DeleteTodo s idParam = (.invalidId, s)
    ∧ GetTodo s idParam ≠ .notFound
    ∧ (UpdateTodo s idParam draft t).1 ≠ .notFound
    ∧ (DeleteTodo s idParam).1 ≠ .notFound := by
  refine ⟨?_, ?_, ?_, ?_, ?_, ?_⟩ <;> simp [GetTodo, UpdateTodo, DeleteTodo, h]

/-- Witness for C9 at the literal id string "abc" and a store holding one
record. -/
theorem invalid_id_rejected_before_lookup_witness :
    GetTodo ⟨[todoA], 2⟩ "abc" = .invalidId
    ∧ UpdateTodo ⟨[todoA], 2⟩ "abc" draftD 7 = (.invalidId, ⟨[todoA], 2⟩)
    ∧ DeleteTodo ⟨[todoA], 2⟩ "abc" = (.invalidId, ⟨[todoA], 2⟩)
    ∧ GetTodo ⟨[todoA], 2⟩ "abc" ≠ .notFound
    ∧ (UpdateTodo ⟨[todoA], 2⟩ "abc" draftD 7).1 ≠ .notFound
    ∧ (DeleteTodo ⟨[todoA], 2⟩ "abc").1 ≠ .notFound :=
  invalid_id_rejected_before_lookup ⟨[todoA], 2⟩ "abc" draftD 7 (by decide)

/-- C6: For every store and every well-formed id not present in it, Update and
Delete answer 404 Todo not found and return the store unchanged — same
records, same order, same counter. -/
theorem notfound_leaves_store_unchanged (s : Store) (idParam : String)
    (draft : Todo) (t : Nat) (id : Int)
    (hp : Atoi idParam = some id)
    (habs : ∀ x ∈ s.todos, x.id ≠ id) :
    UpdateTodo s idParam draft t = (.notFound, s)
    ∧ DeleteTodo s idParam = (.notFound, s) := by
  constructor
  · simp [UpdateTodo, hp, updateInList_eq_none habs draft t]
  · simp [DeleteTodo, hp, deleteInList_eq_none habs]

/-- Witness for C6: id 5 against a store holding only id 1. -/
theorem notfound_leaves_store_unchanged_witness :
    UpdateTodo ⟨[todoA], 2⟩ "5" draftD 7 = (.notFound, ⟨[todoA], 2⟩)
    ∧ DeleteTodo ⟨[todoA], 2⟩ "5" = (.notFound, ⟨[todoA], 2⟩) :=
  notfound_leaves_store_unchanged ⟨[todoA], 2⟩ "5" draftD 7 5 (by decide) (by decide)

/-- C10: Two Create requests whose bodies agree on title, description and
completed produce identical responses and identical stores, whatever id,
created_at or updated_at values the caller supplied in the JSON payload: the
stored id always comes from the counter and the timestamps from the clock. -/
theorem create_ignores_caller_id_and_timestamps (s : Store) (d1 d2 : Todo)
    (t1 t2 : Nat)
    (ht : d1.title = d2.title) (hd : d1.description = d2.description)
    (hc : d1.completed = d2.completed) :
    CreateTodo s d1 t1 t2 = CreateTodo s d2 t1 t2 := by
  cases d1
  cases d2
  simp_all [CreateTodo]

/-- Witness for C10: a body carrying id 999 and nonzero timestamps creates
exactly what the same body without them creates. -/
theorem create_ignores_caller_id_and_timestamps_witness :
    CreateTodo Store.init draftJunk 5 6 = CreateTodo Store.init draftD 5 6 :=
  create_ignores_caller_id_and_timestamps Store.init draftJunk draftD 5 6 rfl rfl rfl

/-- C7 counterexample: `CreateTodo` reads the clock twice (src/main.go lines
42-43); when the two reads differ the stored record's created_at and
updated_at differ, so equal timestamps are not forced by the code. -/
theorem create_equal_timestamps_cex :
    (respTodo (CreateTodo Store.init draftD 0 1).1).created_at
      ≠ (respTodo (CreateTodo Store.init draftD 0 1).1).updated_at := by
  decide

/-- C7 amended: a successful Create stores the draft's title, description and
completed under the assigned id, with created_at set by the first clock read
and updated_at by the second — equal whenever the two reads coincide — and a
Get of the assigned id afterwards returns exactly that stored record. -/
theorem create_then_get_returns_draft (s : Store) (draft : Todo) (t1 t2 : Nat)
    (hfresh : ∀ x ∈ s.todos, x.id ≠ s.nextID) :
    (CreateTodo s draft t1 t2).1 =
      .created { draft with id := s.nextID, created_at := t1, updated_at := t2 }
    ∧ (t1 = t2 →
        (respTodo (CreateTodo s draft t1 t2).1).created_at
          = (respTodo (CreateTodo s draft t1 t2).1).updated_at)
    ∧ ∀ idp, Atoi idp = some s.nextID →
        GetTodo (CreateTodo s draft t1 t2).2 idp =
          .ok { draft with id := s.nextID, created_at := t1, updated_at := t2 } := by
  refine ⟨rfl, ?_, ?_⟩
  · intro h
    subst h
    rfl
  · intro idp hidp
    have hnone : findTodo s.todos s.nextID = none := findTodo_eq_none hfresh
    have hfind : findTodo
        (s.todos ++ [{ draft with id := s.nextID, created_at := t1, updated_at := t2 }])
        s.nextID =
        some { draft with id := s.nextID, created_at := t1, updated_at := t2 } := by
      unfold findTodo at hnone ⊢
      rw [List.find?_append, hnone]
      simp [List.find?]
    simp [GetTodo, hidp, CreateTodo, hfind]

/-- Witness for the amended C7: create in the empty store with both clock
reads at 5, then get id 1. -/
theorem create_then_get_returns_draft_witness :
    GetTodo (CreateTodo Store.init draftD 5 5).2 "1" =
      .ok { draftD with id := 1, created_at := 5, updated_at := 5 } :=
  (create_then_get_returns_draft Store.init draftD 5 5 (by decide)).2.2 "1" (by decide)

/-- C5: For every store whose slice decomposes as pre ++ old :: post with old
the first record carrying the requested id, a successful Update answers 200
with a record taking id from the located record, created_at from the located
record, updated_at from the clock read, and title/description/completed from
the draft; the new slice is pre ++ that record :: post — every other record
keeps its position and value, and the counter is untouched. -/
theorem update_replaces_all_but_id_and_created
    (s : Store) (idParam : String) (draft : Todo) (t : Nat) (id : Int)
    (pre : List Todo) (old : Todo) (post : List Todo)
    (hp : Atoi idParam = some id)
    (hsplit : s.todos = pre ++ old :: post)
    (hold : old.id = id)
    (hpre : ∀ y ∈ pre, y.id ≠ id) :
    UpdateTodo s idParam draft t =
      (.ok { draft with id := id, created_at := old.created_at, updated_at := t },
        { s with todos :=
            pre ++ { draft with id := id, created_at := old.created_at, updated_at := t } :: post })
    ∧ ({ draft with id := id, created_at := old.created_at, updated_at := t } : Todo).title
        = draft.title
    ∧ ({ draft with id := id, created_at := old.created_at, updated_at := t } : Todo).description
        = draft.description
    ∧ ({ draft with id := id, created_at := old.created_at, updated_at := t } : Todo).completed
        = draft.completed
    ∧ (UpdateTodo s idParam draft t).2.nextID = s.nextID := by
  have hupd := updateInList_found pre old post id draft t hold hpre
  refine ⟨?_, rfl, rfl, rfl, ?_⟩
  · simp [UpdateTodo, hp, hsplit, hupd]
  · simp [UpdateTodo, hp, hsplit, hupd]

/-- Witness for C5: update id 2 in a three-record store. -/
theorem update_replaces_all_but_id_and_created_witness :
    UpdateTodo ⟨[todoA, todoB, todoC], 4⟩ "2" draftD 99 =
      (.ok { draftD with id := 2, created_at := todoB.created_at, updated_at := 99 },
        ⟨[todoA, { draftD with id := 2, created_at := todoB.created_at, updated_at := 99 },
          todoC], 4⟩) :=
  (update_replaces_all_but_id_and_created ⟨[todoA, todoB, todoC], 4⟩ "2" draftD 99 2
    [todoA] todoB [todoC] (by decide) rfl (by decide) (by decide)).1

/-- C8: For every store whose slice decomposes as pre ++ old :: post with old
the only record carrying the requested id, Delete answers 200 and leaves the
slice pre ++ post — exactly that record removed, the relative order of the
rest preserved — and afterwards a Get and a second Delete of the same id both
answer 404 (the second Delete changing nothing). -/
theorem delete_removes_exactly_one (s : Store) (idParam : String) (id : Int)
    (pre : List Todo) (old : Todo) (post : List Todo)
    (hp : Atoi idParam = some id)
    (hsplit : s.todos = pre ++ old :: post)
    (hold : old.id = id)
    (hpre : ∀ y ∈ pre, y.id ≠ id)
    (hpost : ∀ y ∈ post, y.id ≠ id) :
    DeleteTodo s idParam = (.deletedOk, { s with todos := pre ++ post })
    ∧ GetTodo { s with todos := pre ++ post } idParam = .notFound
    ∧ DeleteTodo { s with todos := pre ++ post } idParam =
        (.notFound, { s with todos := pre ++ post }) := by
  have hrest : ∀ y ∈ pre ++ post, y.id ≠ id := by
    intro y hy
    rcases List.mem_append.mp hy with h | h
    · exact hpre y h
    · exact hpost y h
  refine ⟨?_, ?_, ?_⟩
  · simp [DeleteTodo, hp, hsplit, deleteInList_found pre old post id hold hpre]
  · simp [GetTodo, hp, findTodo_eq_none hrest]
  · simp [DeleteTodo, hp, deleteInList_eq_none hrest]

/-- Witness for C8: delete id 2 from a three-record store, then get and
delete it again. -/
theorem delete_removes_exactly_one_witness :
    DeleteTodo ⟨[todoA, todoB, todoC], 4⟩ "2" = (.deletedOk, ⟨[todoA, todoC], 4⟩)
    ∧ GetTodo ⟨[todoA, todoC], 4⟩ "2" = .notFound
    ∧ DeleteTodo ⟨[todoA, todoC], 4⟩ "2" = (.notFound, ⟨[todoA, todoC], 4⟩) :=
  delete_removes_exactly_one ⟨[todoA, todoB, todoC], 4⟩ "2" 2
    [todoA] todoB [todoC] (by decide) rfl (by decide) (by decide) (by decide)

/-- C2: the claim promises that any effective page whose offset
`(page - 1) * limit` reaches past the records yields an empty page, but the
program computes that offset with wrapping int64 arithmetic.  Evaluated at the
failing inputs on a one-record store: page 4611686018427387905 at limit 4
wraps the offset (exactly 2^64) to 0 and serves the first record where the
claim demands an empty list; page 9223372036854775807 (MaxInt64) at limit 10
wraps the offset to -20 and the slice expression `todos[-20:-10]` panics
(`none`) instead of answering at all. -/
theorem list_page_overflow_bug :
    GetTodosCore [todoA] 4611686018427387905 4
      = some { todos := [todoA], total_count := 1,
               current_page := 4611686018427387905, total_pages := 1,
               per_page := 4, has_next := false, has_prev := true }
    ∧ GetTodosCore [todoA] 9223372036854775807 10 = none := by
  constructor
  · decide
  · decide

/-- C3: For every pair of page/limit query strings — absent (empty), malformed
or any integer — the list handler uses page = the parsed value when positive
and 1 otherwise, and limit = the parsed value when in (0, 100], 100 when the
parsed value exceeds 100, and 10 otherwise; malformed values are never
rejected — the handler always runs the pagination computation on the
effective values. -/
theorem query_param_defaulting (pp lp : String) :
    (∀ p : Int, Atoi pp = some p → 0 < p → parsePage pp = p)
    ∧ (Atoi pp = none → parsePage pp = 1)
    ∧ (∀ p : Int, Atoi pp = some p → p ≤ 0 → parsePage pp = 1)
    ∧ (∀ l : Int, Atoi lp = some l → 0 < l → l ≤ 100 → parseLimit lp = l)
    ∧ (∀ l : Int, Atoi lp = some l → 100 < l → parseLimit lp = 100)
    ∧ (Atoi lp = none → parseLimit lp = 10)
    ∧ (∀ l : Int, Atoi lp = some l → l ≤ 0 → parseLimit lp = 10)
    ∧ ∀ s : Store, GetTodos s pp lp = GetTodosCore s.todos (parsePage pp) (parseLimit lp) := by
  have hempty : Atoi "" = none := rfl
  refine ⟨?_, ?_, ?_, ?_, ?_, ?_, ?_, fun s => rfl⟩
  · intro p hp hpos
    by_cases hpp : pp = ""
    · rw [hpp, hempty] at hp
      cases hp
    · rw [parsePage, if_neg hpp, hp]
      simp [hpos]
  · intro hp
    by_cases hpp : pp = ""
    · rw [parsePage, if_pos hpp]
    · rw [parsePage, if_neg hpp, hp]
  · intro p hp hnonpos
    by_cases hpp : pp = ""
    · rw [parsePage, if_pos hpp]
    · rw [parsePage, if_neg hpp, hp]
      simp [not_lt.mpr hnonpos]
  · intro l hl hpos hle
    by_cases hlp : lp = ""
    · rw [hlp, hempty] at hl
      cases hl
    · rw [parseLimit, if_neg hlp, hl]
      simp [hpos, hle]
  · intro l hl hgt
    by_cases hlp : lp = ""
    · rw [hlp, hempty] at hl
      cases hl
    · rw [parseLimit, if_neg hlp, hl]
      simp [not_le.mpr hgt, (show (0:Int) < l by omega)]
  · intro hl
    by_cases hlp : lp = ""
    · rw [parseLimit, if_pos hlp]
    · rw [parseLimit, if_neg hlp, hl]
  · intro l hl hnonpos
    by_cases hlp : lp = ""
    · rw [parseLimit, if_pos hlp]
    · rw [parseLimit, if_neg hlp, hl]
      simp [not_lt.mpr hnonpos]

/-- Witness for C3: limit 500 is clamped to 100, page 0 falls back to 1,
malformed limit falls back to 10. -/
theorem query_param_defaulting_witness :
    parsePage "0" = 1 ∧ parseLimit "500" = 100 ∧ parseLimit "abc" = 10 :=
  ⟨(query_param_defaulting "0" "500").2.2.1 0 (by decide) (by decide),
    (query_param_defaulting "0" "500").2.2.2.2.1 500 (by decide) (by decide),
    (query_param_defaulting "0" "abc").2.2.2.2.2.1 (by decide)⟩

/-- The total_pages field of every envelope the computation returns is the
clamped integer ceiling expression, whichever branch produced it. -/
theorem GetTodosCore_total_pages (todos : List Todo) (page limit : Int)
    (r : PageResponse) (hr : GetTodosCore todos page limit = some r) :
    r.total_pages =
      (if Int.tdiv ((todos.length : Int) + limit - 1) limit = 0 then 1
       else Int.tdiv ((todos.length : Int) + limit - 1) limit) := by
  simp only [GetTodosCore] at hr
  rcases ite_eq_iff.mp hr with ⟨_, h⟩ | ⟨_, h⟩
  · cases h
    rfl
  · rcases ite_eq_iff.mp h with ⟨_, h2⟩ | ⟨_, h2⟩
    · cases h2
    · cases h2
      rfl

/-- C4: For every slice and every effective limit, the reported total_pages is
the ceiling of totalCount / limit, except that an empty collection is reported
as 1 page rather than 0. -/
theorem total_pages_is_ceil (todos : List Todo) (page limit : Int)
    (hl : 1 ≤ limit) :
    ∀ r : PageResponse, GetTodosCore todos page limit = some r →
    r.total_pages =
      if todos.length = 0 then 1
      else ⌈(todos.length : ℚ) / (limit : ℚ)⌉ := by
  intro r hr
  rw [GetTodosCore_total_pages todos page limit r hr]
  rcases Nat.eq_zero_or_pos todos.length with h0 | hpos
  · have hz : Int.tdiv (((todos.length : Int)) + limit - 1) limit = 0 := by
      rw [h0]
      push_cast
      rw [Int.tdiv_eq_ediv (by omega) (by omega)]
      exact Int.ediv_eq_zero_of_lt (by omega) (by omega)
    rw [hz, if_pos rfl, if_pos h0]
  · have htcpos : (1 : Int) ≤ (todos.length : Int) := by exact_mod_cast hpos
    have hq : Int.tdiv ((todos.length : Int) + limit - 1) limit
        = ((todos.length : Int) + limit - 1) / limit :=
      Int.tdiv_eq_ediv (by omega) (by omega)
    have hdm := Int.ediv_add_emod ((todos.length : Int) + limit - 1) limit
    have hr0 : 0 ≤ ((todos.length : Int) + limit - 1) % limit :=
      Int.emod_nonneg _ (by omega)
    have hr1 : ((todos.length : Int) + limit - 1) % limit < limit :=
      Int.emod_lt_of_pos _ (by omega)
    have hub : (todos.length : Int) ≤ (((todos.length : Int) + limit - 1) / limit) * limit := by
      rw [mul_comm]
      omega
    have hlb : ((((todos.length : Int) + limit - 1) / limit) - 1) * limit
        < (todos.length : Int) := by
      have hmul : ((((todos.length : Int) + limit - 1) / limit) - 1) * limit
          = limit * (((todos.length : Int) + limit - 1) / limit) - limit := by ring
      omega
    have hq1 : 1 ≤ ((todos.length : Int) + limit - 1) / limit := by
      by_contra hcon
      push_neg at hcon
      have : limit * (((todos.length : Int) + limit - 1) / limit) ≤ 0 := by
        have hle : ((todos.length : Int) + limit - 1) / limit ≤ 0 := by omega
        exact mul_nonpos_of_nonneg_of_nonpos (by omega) hle
      omega
    have hlimQ : (0 : ℚ) < (limit : ℚ) := by exact_mod_cast (by omega : (0:Int) < limit)
    have hceil : ⌈(todos.length : ℚ) / (limit : ℚ)⌉
        = ((todos.length : Int) + limit - 1) / limit := by
      rw [Int.ceil_eq_iff]
      constructor
      · rw [lt_div_iff₀ hlimQ]
        exact_mod_cast (by exact_mod_cast hlb :
          (((((todos.length : Int) + limit - 1) / limit : Int) : ℚ) - 1) * (limit : ℚ)
            < ((todos.length : Int) : ℚ))
      · rw [div_le_iff₀ hlimQ]
        exact_mod_cast hub
    rw [hq, if_neg (by omega), if_neg (by omega), hceil]

/-- Witness for C4: 3 records at limit 2 make 2 pages; 0 records make 1. -/
theorem total_pages_is_ceil_witness :
    (⟨[todoA, todoB], 3, 1, 2, 2, true, false⟩ : PageResponse).total_pages =
      (if ([todoA, todoB, todoC] : List Todo).length = 0 then 1
       else ⌈((([todoA, todoB, todoC] : List Todo).length : ℚ)) / ((2 : Int) : ℚ)⌉)
    ∧ (⟨[], 0, 1, 1, 10, false, false⟩ : PageResponse).total_pages =
      (if ([] : List Todo).length = 0 then 1
       else ⌈((([] : List Todo).length : ℚ)) / ((10 : Int) : ℚ)⌉) :=
  ⟨total_pages_is_ceil [todoA, todoB, todoC] 1 2 (by decide)
      ⟨[todoA, todoB], 3, 1, 2, 2, true, false⟩ (by decide),
    total_pages_is_ceil [] 1 10 (by decide)
      ⟨[], 0, 1, 1, 10, false, false⟩ (by decide)⟩
